import Mathlib

/-!
Verification of the QuizWiz trivia quiz (src/script.js).

The script keeps three module-level globals (`currentQuestionIndex`, `score`,
`questions`) and a DOM-held per-question lock (after `selectAnswer` every
answer button is disabled and the next button is shown).  We embed that
state shallowly: the globals become fields of `QuizState`, and the
DOM lock becomes the boolean field `answeredCurrent` (true exactly when the
answer buttons of the current question are disabled and the next button is
visible).  Fallible code (JS exceptions) becomes `Option`/`Except`.
Randomness is an explicit draw function passed to the shuffle.
-/

/-- One answer option, as built by `fetchQuestions`:
`{ text: ..., correct: true/false }`. -/
structure Answer where
  text : String
  correct : Bool
deriving DecidableEq, Repr

/-- One quiz question, as built by `fetchQuestions`:
`{ question: ..., answers: [...] }`. -/
structure Question where
  question : String
  answers : List Answer
deriving DecidableEq, Repr

/-- The script's mutable state: the three globals of src/script.js lines 6-8
plus `answeredCurrent`, which models the DOM-side lock that `selectAnswer`
installs (all answer buttons disabled, next button shown) and that
`resetState` clears. -/
structure QuizState where
  questions : List Question
  currentQuestionIndex : Nat
  score : Nat
  answeredCurrent : Bool
deriving DecidableEq, Repr

/-- The initial values of the globals (src/script.js lines 6-8). -/
def initialState : QuizState :=
  { questions := [], currentQuestionIndex := 0, score := 0, answeredCurrent := false }

/-! ## Sequence shuffler (src/script.js lines 41-47)

`shuffleArray` iterates `i` from `length - 1` down to `1`, draws
`j = Math.floor(Math.random() * (i + 1))` (which lies in `[0, i]`) and swaps
elements `i` and `j`.  The draw for loop index `i` is modelled as `rand i`;
an in-place JS array becomes a returned list. -/

/-- `[array[i], array[j]] = [array[j], array[i]]`: swap the elements at
positions `i` and `j` (identity when either index is out of range; in the
source both indices are always in range). -/
def swapIdx (l : List α) (i j : Nat) : List α :=
  match l[i]?, l[j]? with
  | some x, some y => (l.set i y).set j x
  | _, _ => l

/-- The loop of `shuffleArray`, counting `i` down to `1`; `rand i` models the
draw `Math.floor(Math.random() * (i + 1))` made at loop index `i`. -/
def shuffleAux (rand : Nat → Nat) : List α → Nat → List α
  | a, 0 => a
  | a, i + 1 => shuffleAux rand (swapIdx a (i + 1) (rand (i + 1))) i

/-- `shuffleArray(array)` (src/script.js lines 41-47). -/
def shuffleArray (array : List α) (rand : Nat → Nat) : List α :=
  shuffleAux rand array (array.length - 1)

/-! ## Text decoder (src/script.js lines 54-58)

Modelled from the spec: `decodeHTML` delegates to the browser
(`textarea.innerHTML` / `.value`), which is not part of the repository's
source; following spec section 4.1 we model the conversion of the named and
numeric HTML character references for `<`, `>`, `&`, `"`, `'` into their
literal characters, with malformed or unrecognized sequences passing through
as literal text. -/

/-- Modelled from the spec: the named character references for `<`, `>`,
`&`, `"`, `'` the spec names, each as the character sequence that follows
the ampersand paired with the literal character it denotes. -/
def entityTable : List (List Char × Char) :=
  [(['l', 't', ';'], '<'),
   (['g', 't', ';'], '>'),
   (['a', 'm', 'p', ';'], '&'),
   (['q', 'u', 'o', 't', ';'], Char.ofNat 34),
   (['a', 'p', 'o', 's', ';'], Char.ofNat 39)]

/-- Modelled from the spec: the numeric value of `c` as a digit in the
given base (10 or 16, accepting upper- and lower-case hex letters), if it
is one. -/
def digitValue (base : Nat) (c : Char) : Option Nat :=
  if 48 ≤ c.toNat ∧ c.toNat ≤ 57 ∧ c.toNat - 48 < base then some (c.toNat - 48)
  else if base = 16 ∧ 97 ≤ c.toNat ∧ c.toNat ≤ 102 then some (c.toNat - 87)
  else if base = 16 ∧ 65 ≤ c.toNat ∧ c.toNat ≤ 70 then some (c.toNat - 55)
  else none

/-- Modelled from the spec: the leading run of digits of the given base,
together with the input that remains after it. -/
def takeDigits (base : Nat) : List Char → List Nat × List Char
  | [] => ([], [])
  | c :: rest =>
    match digitValue base c with
    | some v =>
      let p := takeDigits base rest
      (v :: p.1, p.2)
    | none => ([], c :: rest)

/-- Modelled from the spec: the number a digit run denotes in the given
base. -/
def digitsToNat (base : Nat) (ds : List Nat) : Nat :=
  ds.foldl (fun acc d => acc * base + d) 0

/-- Modelled from the spec: a non-empty digit run of the given base
terminated by a semicolon, decoded to the character with that code point. -/
def findDigits (base : Nat) (r : List Char) : Option (Char × List Char) :=
  match takeDigits base r with
  | ([], _) => none
  | (ds, ';' :: r2) => some (Char.ofNat (digitsToNat base ds), r2)
  | (_, _) => none

/-- Modelled from the spec: a numeric character reference right after the
ampersand — `#` followed by decimal digits, or `#x`/`#X` followed by
hexadecimal digits, terminated by a semicolon. -/
def findNumericEntity (rest : List Char) : Option (Char × List Char) :=
  match rest with
  | '#' :: 'x' :: r => findDigits 16 r
  | '#' :: 'X' :: r => findDigits 16 r
  | '#' :: r => findDigits 10 r
  | _ => none

/-- Modelled from the spec: the named or numeric reference recognized right
after an ampersand, together with the input that remains after it; `none`
when the ampersand starts no recognized reference. -/
def findEntity (rest : List Char) : Option (Char × List Char) :=
  match (entityTable.find? (fun e => e.1.isPrefixOf rest)).map
      (fun e => (e.2, rest.drop e.1.length)) with
  | some hit => some hit
  | none => findNumericEntity rest

/-- Modelled from the spec: one pass over the input characters; an
ampersand that starts a recognized character reference is replaced by the
literal character, and any other character — including the ampersand of a
malformed reference — passes through unchanged.  `fuel` bounds the
recursion and is always at least the input length, so it never runs out. -/
def decodeCharsFuel : Nat → List Char → List Char
  | _, [] => []
  | 0, l => l
  | fuel + 1, c :: rest =>
    if c = '&' then
      match findEntity rest with
      | some (d, r) => d :: decodeCharsFuel fuel r
      | none => c :: decodeCharsFuel fuel rest
    else
      c :: decodeCharsFuel fuel rest

/-- Modelled from the spec: entity decoding on the character list of the
input. -/
def decodeChars (l : List Char) : List Char :=
  decodeCharsFuel l.length l

/-- Modelled from the spec: `decodeHTML(html)` (src/script.js lines 54-58);
the browser's entity decoding is modelled by `decodeChars`. -/
def decodeHTML (html : String) : String :=
  String.mk (decodeChars html.data)

/-- Modelled from the spec: the input starts with an ampersand that begins
a recognized character reference. -/
def startsWithEntity (l : List Char) : Bool :=
  match l with
  | '&' :: rest => (findEntity rest).isSome
  | _ => false

/-- Modelled from the spec: no position of the input starts a character
reference — the text is plain, already-decoded text (a literal ampersand
that begins no reference, as in `AT&T`, is allowed). -/
def entityFree : List Char → Bool
  | [] => true
  | c :: rest => !startsWithEntity (c :: rest) && entityFree rest

/-! ## Question bank client (src/script.js lines 13-34)

`fetchQuestions` performs one GET, throws `Error('Failed to fetch
questions.')` when `!response.ok`, parses the body (`response.json()`
throws on invalid JSON), maps `data.results` (a `TypeError` when the field
is missing) into `Question` values, assigns the global `questions` and
calls `startQuiz`; any thrown error is caught and reported (`console.error`
+ `alert`) leaving the globals untouched. -/

/-- One raw record of the Open Trivia DB response. -/
structure RawQuestion where
  question : String
  correct_answer : String
  incorrect_answers : List String
deriving DecidableEq, Repr

/-- A parsed JSON body; `results := none` models a valid JSON object that
lacks the `results` field (so `data.results.map` throws a `TypeError`). -/
structure ApiData where
  results : Option (List RawQuestion)
deriving DecidableEq, Repr

/-- The transport's view of the HTTP response; `jsonBody := none` models a
body that is not valid JSON (so `response.json()` throws a `SyntaxError`). -/
structure ApiResponse where
  ok : Bool
  jsonBody : Option ApiData
deriving DecidableEq, Repr

/-- The failure kinds of a fetch attempt, distinguishable by the class of
the thrown exception: `networkError` is the `Error('Failed to fetch
questions.')` thrown on a non-success status, `formatError` covers the
`SyntaxError` of `response.json()` on an invalid body and the `TypeError`
of `data.results.map` when `results` is missing. -/
inductive FetchError where
  | networkError
  | formatError
deriving DecidableEq, Repr

/-- The answer list built for one raw record (src/script.js lines 24-27):
the decoded `correct_answer` marked `correct := true` followed by the
decoded `incorrect_answers` marked `correct := false`. -/
def mkAnswers (q : RawQuestion) : List Answer :=
  { text := decodeHTML q.correct_answer, correct := true } ::
    q.incorrect_answers.map (fun ans => { text := decodeHTML ans, correct := false })

/-- The `Question` built for one raw record (src/script.js lines 22-28):
decoded question text and the shuffled answer list; `rand` supplies the
draws of that record's `shuffleArray` call. -/
def mkQuestion (rand : Nat → Nat) (q : RawQuestion) : Question :=
  { question := decodeHTML q.question, answers := shuffleArray (mkAnswers q) rand }

/-- The data pipeline of `fetchQuestions` (src/script.js lines 15-28) up to
the assignment to the global `questions`: the error checks and the mapping
of `data.results` into `Question` values.  `rands k` supplies the draws of
the shuffle performed for the `k`-th record. -/
def fetchQuestionsCore (resp : ApiResponse) (rands : Nat → Nat → Nat) :
    Except FetchError (List Question) :=
  if resp.ok = false then
    Except.error FetchError.networkError
  else
    match resp.jsonBody with
    | none => Except.error FetchError.formatError
    | some data =>
      match data.results with
      | none => Except.error FetchError.formatError
      | some rs => Except.ok (rs.enum.map (fun p => mkQuestion (rands p.1) p.2))

/-! ## Quiz session state machine (src/script.js lines 63-154) -/

/-- `showQuestion()` (src/script.js lines 73-90): `resetState` hides the
next button and rebuilds the answer buttons enabled (clearing the lock,
`answeredCurrent := false`), then `questions[currentQuestionIndex]` is read;
when the index is out of range that value is `undefined` and reading
`.question` on it throws a `TypeError`, modelled as `none`. -/
def showQuestion (s : QuizState) : Option QuizState :=
  let s1 : QuizState := { s with answeredCurrent := false }
  match s1.questions[s1.currentQuestionIndex]? with
  | none => none
  | some _ => some s1

/-- `startQuiz()` (src/script.js lines 63-68): resets the globals
`currentQuestionIndex` and `score` to `0` and shows the first question
(`none` when `showQuestion` throws on an empty question list). -/
def startQuiz (s : QuizState) : Option QuizState :=
  showQuestion { s with currentQuestionIndex := 0, score := 0 }

/-- `selectAnswer(e)` (src/script.js lines 106-123): `chosen` is the answer
behind the clicked button (`dataset.correct` is set exactly for the correct
answer).  If it is correct, `score++`; then every answer button is disabled
and the next button is shown (`answeredCurrent := true`).  There is no
guard on a repeated invocation. -/
def selectAnswer (chosen : Answer) (s : QuizState) : QuizState :=
  if chosen.correct then
    { s with score := s.score + 1, answeredCurrent := true }
  else
    { s with answeredCurrent := true }

/-- `showScore()` (src/script.js lines 128-133): renders the final score and
the replay button; it reads but does not write the session fields. -/
def showScore (s : QuizState) : QuizState :=
  s

/-- `handleNextButton()` (src/script.js lines 138-145): `currentQuestionIndex++`,
then `showQuestion` when the new index is still in range and `showScore`
otherwise. -/
def handleNextButton (s : QuizState) : Option QuizState :=
  let s1 : QuizState := { s with currentQuestionIndex := s.currentQuestionIndex + 1 }
  if s1.currentQuestionIndex < s1.questions.length then
    showQuestion s1
  else
    some (showScore s1)

/-- `fetchQuestions()` as a state transformer (src/script.js lines 13-34):
on any thrown error the catch clause reports and leaves the globals
untouched; on success the global `questions` is assigned and `startQuiz`
runs (when `startQuiz` itself throws, on an empty batch, that happens after
its resets of `currentQuestionIndex` and `score` and after `resetState`, and
the same catch clause reports). -/
def fetchQuestions (s : QuizState) (resp : ApiResponse) (rands : Nat → Nat → Nat) :
    QuizState :=
  match fetchQuestionsCore resp rands with
  | Except.error _ => s
  | Except.ok qs =>
    match startQuiz { s with questions := qs } with
    | some s2 => s2
    | none =>
      { s with questions := qs, currentQuestionIndex := 0, score := 0,
               answeredCurrent := false }

/-- The next button's click listener (src/script.js lines 148-154):
advance while `currentQuestionIndex < questions.length`, otherwise fetch a
fresh batch (replay). -/
def nextButtonClick (s : QuizState) (resp : ApiResponse) (rands : Nat → Nat → Nat) :
    Option QuizState :=
  if s.currentQuestionIndex < s.questions.length then
    handleNextButton s
  else
    some (fetchQuestions s resp rands)

/-- The session is finished when the index has run past the question list
(the listener then treats the next click as a replay). -/
def finished (s : QuizState) : Bool :=
  s.questions.length ≤ s.currentQuestionIndex

/-- The states the UI can actually reach from a successful `startQuiz`:
`selectAnswer` fires only while a question is displayed and its buttons are
still enabled (the DOM guard: `resetState` rebuilds the buttons and
`selectAnswer` disables them), and the next button is clickable only when it
is visible (after an answer, or on the score screen). -/
inductive Reachable : QuizState → Prop where
  | start (qs : List Question) (s : QuizState)
      (h : startQuiz { initialState with questions := qs } = some s) :
      Reachable s
  | select (s : QuizState) (a : Answer) (hr : Reachable s)
      (hq : s.currentQuestionIndex < s.questions.length)
      (ha : s.answeredCurrent = false) :
      Reachable (selectAnswer a s)
  | click (s s' : QuizState) (resp : ApiResponse) (rands : Nat → Nat → Nat)
      (hr : Reachable s)
      (hbtn : s.answeredCurrent = true ∨ s.questions.length ≤ s.currentQuestionIndex)
      (h : nextButtonClick s resp rands = some s') :
      Reachable s'

/-! ## Helper lemmas -/

open List in
theorem cons_set_perm (t : List α) (m : Nat) (y a : α) (h : t[m]? = some y) :
    List.Perm (y :: t.set m a) (a :: t) := by
  induction t generalizing m with
  | nil => simp at h
  | cons b t ih =>
    cases m with
    | zero =>
      simp only [List.getElem?_cons_zero, Option.some.injEq] at h
      rw [← h, List.set_cons_zero]
      exact List.Perm.swap a b t
    | succ k =>
      simp only [List.getElem?_cons_succ] at h
      calc y :: (b :: t).set (k + 1) a
          = y :: b :: t.set k a := by rw [List.set_cons_succ]
        _ ~ b :: y :: t.set k a := List.Perm.swap b y _
        _ ~ b :: (a :: t) := List.Perm.cons b (ih k h)
        _ ~ a :: b :: t := List.Perm.swap a b t

theorem set_set_perm (l : List α) (i j : Nat) (x y : α)
    (hx : l[i]? = some x) (hy : l[j]? = some y) :
    List.Perm ((l.set i y).set j x) l := by
  induction l generalizing i j with
  | nil => simp at hx
  | cons a t ih =>
    cases i with
    | zero =>
      simp only [List.getElem?_cons_zero, Option.some.injEq] at hx
      subst hx
      rw [List.set_cons_zero]
      cases j with
      | zero =>
        simp only [List.getElem?_cons_zero, Option.some.injEq] at hy
        subst hy
        rw [List.set_cons_zero]
      | succ m =>
        simp only [List.getElem?_cons_succ] at hy
        rw [List.set_cons_succ]
        exact cons_set_perm t m y a hy
    | succ n =>
      simp only [List.getElem?_cons_succ] at hx
      rw [List.set_cons_succ]
      cases j with
      | zero =>
        simp only [List.getElem?_cons_zero, Option.some.injEq] at hy
        subst hy
        rw [List.set_cons_zero]
        exact cons_set_perm t n x a hx
      | succ m =>
        simp only [List.getElem?_cons_succ] at hy
        rw [List.set_cons_succ]
        exact List.Perm.cons a (ih n m hx hy)

theorem swapIdx_perm (l : List α) (i j : Nat) : List.Perm (swapIdx l i j) l := by
  unfold swapIdx
  split
  next x y hx hy => exact set_set_perm l i j x y hx hy
  all_goals exact List.Perm.refl l

theorem shuffleAux_perm (rand : Nat → Nat) (a : List α) (i : Nat) :
    List.Perm (shuffleAux rand a i) a := by
  induction i generalizing a with
  | zero => exact List.Perm.refl a
  | succ i ih =>
    simp only [shuffleAux]
    exact (ih _).trans (swapIdx_perm a (i + 1) (rand (i + 1)))

theorem shuffleArray_perm (a : List α) (rand : Nat → Nat) :
    List.Perm (shuffleArray a rand) a :=
  shuffleAux_perm rand a (a.length - 1)

theorem mkAnswers_countP (q : RawQuestion) :
    (mkAnswers q).countP (fun a => a.correct) = 1 := by
  simp [mkAnswers, List.countP_cons, List.countP_map, Function.comp]

theorem startQuiz_some {s s' : QuizState} (h : startQuiz s = some s') :
    s' = { s with currentQuestionIndex := 0, score := 0, answeredCurrent := false } := by
  simp only [startQuiz, showQuestion] at h
  split at h
  · exact absurd h (by simp)
  · exact (Option.some.injEq _ _ ▸ h).symm

theorem startQuiz_some_ne_nil {s s' : QuizState} (h : startQuiz s = some s') :
    s.questions ≠ [] := by
  intro hnil
  simp only [startQuiz, showQuestion, hnil] at h
  simp at h

theorem fetchQuestions_cases (s : QuizState) (resp : ApiResponse)
    (rands : Nat → Nat → Nat) :
    fetchQuestions s resp rands = s ∨
      ∃ qs, fetchQuestions s resp rands =
        { s with questions := qs, currentQuestionIndex := 0, score := 0,
                 answeredCurrent := false } := by
  unfold fetchQuestions
  split
  · exact Or.inl rfl
  · next qs _ =>
    split
    · next s2 h2 =>
      refine Or.inr ⟨qs, ?_⟩
      rw [startQuiz_some h2]
    · exact Or.inr ⟨qs, rfl⟩

theorem showQuestion_some {s s' : QuizState} (h : showQuestion s = some s') :
    s' = { s with answeredCurrent := false } := by
  simp only [showQuestion] at h
  split at h
  · exact absurd h (by simp)
  · exact (Option.some.injEq _ _ ▸ h).symm

theorem handleNextButton_some {s s' : QuizState} (h : handleNextButton s = some s') :
    (s.currentQuestionIndex + 1 < s.questions.length ∧
      s' = { s with currentQuestionIndex := s.currentQuestionIndex + 1,
                    answeredCurrent := false }) ∨
    (s.questions.length ≤ s.currentQuestionIndex + 1 ∧
      s' = { s with currentQuestionIndex := s.currentQuestionIndex + 1 }) := by
  simp only [handleNextButton] at h
  split at h
  · next hlt =>
    left
    exact ⟨hlt, showQuestion_some h⟩
  · next hge =>
    right
    refine ⟨by omega, ?_⟩
    simp only [showScore, Option.some.injEq] at h
    exact h.symm

/-! ## Concrete fixtures used in witnesses and counterexamples -/

/-- A correct answer option. -/
def demoAnswer : Answer := { text := "a", correct := true }

/-- A one-answer question. -/
def demoQuestion : Question := { question := "q", answers := [demoAnswer] }

/-- The state right after a successful `startQuiz` on the one-question
batch `[demoQuestion]`. -/
def demoStart : QuizState :=
  { questions := [demoQuestion], currentQuestionIndex := 0, score := 0,
    answeredCurrent := false }

/-- A draw function that always picks index 0. -/
def rands0 : Nat → Nat → Nat := fun _ _ => 0

/-- A response whose transport status is non-success. -/
def respNet : ApiResponse := { ok := false, jsonBody := some { results := some [] } }

/-- A success-status response whose body is not valid JSON. -/
def respBadJson : ApiResponse := { ok := true, jsonBody := none }

/-- A success-status response whose JSON body lacks the `results` field. -/
def respNoResults : ApiResponse := { ok := true, jsonBody := some { results := none } }

/-- A raw record with one correct and two incorrect answers. -/
def rawDemo : RawQuestion :=
  { question := "q", correct_answer := "a", incorrect_answers := ["b", "c"] }

/-- A fully well-formed response carrying the single record `rawDemo`. -/
def respOk : ApiResponse := { ok := true, jsonBody := some { results := some [rawDemo] } }

/-! ## Claims -/

/-- Claim C1: the claim says a second `selectAnswer` call on an already
answered question is a no-op.  The code has no such guard: evaluated on a
session in which the correct answer has already been selected (score 1,
`answeredCurrent` true), a second `selectAnswer` with the correct answer
increments the score again to 2, so the call is not a no-op. -/
theorem claimC1_reselect_not_noop :
    (selectAnswer demoAnswer demoStart).answeredCurrent = true ∧
    (selectAnswer demoAnswer demoStart).score = 1 ∧
    (selectAnswer demoAnswer (selectAnswer demoAnswer demoStart)).score = 2 ∧
    selectAnswer demoAnswer (selectAnswer demoAnswer demoStart) ≠
      selectAnswer demoAnswer demoStart := by
  refine ⟨rfl, rfl, rfl, ?_⟩
  decide

/-- Claim C2 (counterexample): the state reached from `start([demoQuestion])`
by one UI-legal `selectAnswer` of the correct answer is reachable, yet its
score (1) exceeds its `currentQuestionIndex` (0), refuting the claimed
invariant `score ≤ currentIndex` for InProgress states. -/
theorem claimC2_counterexample :
    Reachable (selectAnswer demoAnswer demoStart) ∧
    ¬ (selectAnswer demoAnswer demoStart).score ≤
        (selectAnswer demoAnswer demoStart).currentQuestionIndex := by
  constructor
  · exact Reachable.select demoStart demoAnswer
      (Reachable.start [demoQuestion] demoStart (by decide))
      (by decide) (by decide)
  · decide

/-- Claim C2 (amended): in every state reachable from a successful start by
UI-legal sequences of answer selections, next-button clicks and replays,
`score ≤ currentIndex + (1 if answeredCurrent else 0)`,
`score ≤ len(questions)` and `currentIndex ≤ len(questions)` hold — so
`score ≤ currentIndex ≤ len(questions)` holds whenever the current question
is not yet answered, and in Finished. -/
theorem claimC2_invariant (s : QuizState) (h : Reachable s) :
    s.score ≤ s.currentQuestionIndex + (if s.answeredCurrent then 1 else 0) ∧
    s.score ≤ s.questions.length ∧
    s.currentQuestionIndex ≤ s.questions.length := by
  induction h with
  | start qs s h =>
    rw [startQuiz_some h]
    simp
  | select s a hr hq ha ih =>
    obtain ⟨h1, h2, h3⟩ := ih
    rw [ha] at h1
    simp only [Bool.false_eq_true, if_false, Nat.add_zero] at h1
    simp only [selectAnswer]
    split
    · exact ⟨by simp; omega, by simp; omega, h3⟩
    · exact ⟨by simp; omega, by simpa using h2, h3⟩
  | click s s' resp rands hr hbtn h ih =>
    obtain ⟨h1, h2, h3⟩ := ih
    have h1' : s.score ≤ s.currentQuestionIndex + 1 := by
      cases hb : s.answeredCurrent <;> simp [hb] at h1 <;> omega
    unfold nextButtonClick at h
    split at h
    · next hlt =>
      rcases handleNextButton_some h with ⟨hlt2, rfl⟩ | ⟨hge2, rfl⟩
      · exact ⟨by simp; omega, by simpa using h2, by simp; omega⟩
      · refine ⟨?_, by simpa using h2, by simp; omega⟩
        cases hb : s.answeredCurrent <;> simp [hb] <;> omega
    · next hge =>
      obtain rfl : fetchQuestions s resp rands = s' := by
        exact Option.some.injEq _ _ ▸ h
      rcases fetchQuestions_cases s resp rands with heq | ⟨qs, heq⟩
      · rw [heq]
        exact ⟨h1, h2, h3⟩
      · rw [heq]
        simp

/-- Claim C2 (witness): the amended invariant evaluated at the state
produced by `startQuiz` on the one-question batch. -/
theorem claimC2_invariant_witness :
    demoStart.score ≤ demoStart.currentQuestionIndex +
      (if demoStart.answeredCurrent then 1 else 0) ∧
    demoStart.score ≤ demoStart.questions.length ∧
    demoStart.currentQuestionIndex ≤ demoStart.questions.length :=
  claimC2_invariant demoStart
    (Reachable.start [demoQuestion] demoStart (by decide))

/-- Claim C3: `startQuiz` on an empty question list throws (the read of
`questions[0].question` in `showQuestion` fails) and does not produce an
InProgress session, while on a non-empty list it succeeds and yields
`score = 0`, `currentQuestionIndex = 0`, `answeredCurrent = false`. -/
theorem claimC3_start (s : QuizState) :
    (s.questions = [] → startQuiz s = none) ∧
    (s.questions ≠ [] →
      startQuiz s = some { s with currentQuestionIndex := 0, score := 0,
                                  answeredCurrent := false }) := by
  constructor
  · intro h
    simp [startQuiz, showQuestion, h]
  · intro h
    match hq : s.questions with
    | [] => exact absurd hq h
    | q :: qs => simp [startQuiz, showQuestion, hq]

/-- Claim C3 (witness): `startQuiz` evaluated on the empty initial state and
on the one-question batch. -/
theorem claimC3_start_witness :
    startQuiz initialState = none ∧
    startQuiz demoStart = some { demoStart with currentQuestionIndex := 0,
                                                score := 0,
                                                answeredCurrent := false } :=
  ⟨(claimC3_start initialState).1 rfl,
   (claimC3_start demoStart).2 (by decide)⟩

/-- Claim C4: under the preconditions that the session is in progress
(`currentQuestionIndex < len(questions)`) and the current question is
answered, `handleNextButton` increments `currentQuestionIndex` by exactly 1
and leaves `questions` and `score` alone; when the new index equals
`len(questions)` the session is finished, otherwise it stays in progress
with `answeredCurrent` reset to false. -/
theorem claimC4_advance (s : QuizState)
    (hin : s.currentQuestionIndex < s.questions.length)
    (hans : s.answeredCurrent = true) :
    ∃ s', handleNextButton s = some s' ∧
      s'.currentQuestionIndex = s.currentQuestionIndex + 1 ∧
      s'.questions = s.questions ∧ s'.score = s.score ∧
      (s'.currentQuestionIndex = s.questions.length → finished s' = true) ∧
      (s'.currentQuestionIndex ≠ s.questions.length →
        finished s' = false ∧ s'.answeredCurrent = false) := by
  by_cases hlt : s.currentQuestionIndex + 1 < s.questions.length
  · refine ⟨{ s with currentQuestionIndex := s.currentQuestionIndex + 1, answeredCurrent := false }, ?_, rfl, rfl, rfl, ?_, ?_⟩
    · have hg : s.questions[s.currentQuestionIndex + 1]? =
          some (s.questions[s.currentQuestionIndex + 1]) :=
        List.getElem?_eq_getElem hlt
      simp [handleNextButton, showQuestion, hlt, hg]
    · intro he
      simp only [finished, decide_eq_true_eq]
      simp at he
      omega
    · intro hne
      refine ⟨?_, rfl⟩
      simp only [finished]
      simp only [decide_eq_false_iff_not]
      omega
  · have he : s.currentQuestionIndex + 1 = s.questions.length := by omega
    refine ⟨{ s with currentQuestionIndex := s.currentQuestionIndex + 1 }, ?_, rfl, rfl, rfl, ?_, ?_⟩
    · simp [handleNextButton, showScore, hlt]
    · intro _
      simp only [finished]
      simp only [decide_eq_true_eq]
      omega
    · intro hne
      exact absurd he hne

/-- Claim C4 (witness): advancing from the answered one-question session. -/
theorem claimC4_advance_witness :
    ∃ s', handleNextButton (selectAnswer demoAnswer demoStart) = some s' ∧
      s'.currentQuestionIndex =
        (selectAnswer demoAnswer demoStart).currentQuestionIndex + 1 ∧
      s'.questions = (selectAnswer demoAnswer demoStart).questions ∧
      s'.score = (selectAnswer demoAnswer demoStart).score ∧
      (s'.currentQuestionIndex =
          (selectAnswer demoAnswer demoStart).questions.length →
        finished s' = true) ∧
      (s'.currentQuestionIndex ≠
          (selectAnswer demoAnswer demoStart).questions.length →
        finished s' = false ∧ s'.answeredCurrent = false) :=
  claimC4_advance (selectAnswer demoAnswer demoStart) (by decide) (by decide)

/-- Claim C5: `fetchQuestionsCore` fails with `networkError` on a
non-success transport status, fails with `formatError` when the body is not
valid JSON or the parsed body lacks the `results` list, produces no question
sequence in either case (the result is `Except.error`), and the two failure
kinds are distinguishable. -/
theorem claimC5_fetch_errors (resp : ApiResponse) (rands : Nat → Nat → Nat) :
    (resp.ok = false →
      fetchQuestionsCore resp rands = Except.error FetchError.networkError) ∧
    (resp.ok = true → resp.jsonBody = none →
      fetchQuestionsCore resp rands = Except.error FetchError.formatError) ∧
    (∀ data, resp.ok = true → resp.jsonBody = some data → data.results = none →
      fetchQuestionsCore resp rands = Except.error FetchError.formatError) ∧
    FetchError.networkError ≠ FetchError.formatError := by
  refine ⟨?_, ?_, ?_, by decide⟩
  · intro h
    simp [fetchQuestionsCore, h]
  · intro h1 h2
    simp [fetchQuestionsCore, h1, h2]
  · intro data h1 h2 h3
    simp [fetchQuestionsCore, h1, h2, h3]

/-- Claim C5 (witness): the three failure shapes evaluated concretely. -/
theorem claimC5_fetch_errors_witness :
    fetchQuestionsCore respNet rands0 = Except.error FetchError.networkError ∧
    fetchQuestionsCore respBadJson rands0 = Except.error FetchError.formatError ∧
    fetchQuestionsCore respNoResults rands0 = Except.error FetchError.formatError :=
  ⟨(claimC5_fetch_errors respNet rands0).1 rfl,
   (claimC5_fetch_errors respBadJson rands0).2.1 rfl rfl,
   (claimC5_fetch_errors respNoResults rands0).2.2.1 { results := none } rfl rfl rfl⟩

/-- Claim C6: when a fetch attempt fails with any of its failure kinds, the
whole session state — the question sequence, the current index and the
score — is exactly what it was before the call: the failed fetch is never
partially applied. -/
theorem claimC6_failed_fetch_frame (s : QuizState) (resp : ApiResponse)
    (rands : Nat → Nat → Nat) (e : FetchError)
    (h : fetchQuestionsCore resp rands = Except.error e) :
    (fetchQuestions s resp rands).questions = s.questions ∧
    (fetchQuestions s resp rands).currentQuestionIndex = s.currentQuestionIndex ∧
    (fetchQuestions s resp rands).score = s.score := by
  unfold fetchQuestions
  rw [h]
  exact ⟨rfl, rfl, rfl⟩

/-- Claim C6 (witness): a failed fetch leaves the answered one-question
session untouched. -/
theorem claimC6_failed_fetch_frame_witness :
    (fetchQuestions (selectAnswer demoAnswer demoStart) respNet rands0).questions =
      (selectAnswer demoAnswer demoStart).questions ∧
    (fetchQuestions (selectAnswer demoAnswer demoStart) respNet
        rands0).currentQuestionIndex =
      (selectAnswer demoAnswer demoStart).currentQuestionIndex ∧
    (fetchQuestions (selectAnswer demoAnswer demoStart) respNet rands0).score =
      (selectAnswer demoAnswer demoStart).score :=
  claimC6_failed_fetch_frame (selectAnswer demoAnswer demoStart) respNet rands0
    FetchError.networkError rfl

/-- Claim C7: for every input list and every choice of draws, the
Fisher-Yates loop of `shuffleArray` returns a list with the same multiset of
elements (a permutation) and hence the same length, and on inputs of length
0 or 1 the output equals the input.  The in-place mutation of the JS array
is modelled by returning the resulting list. -/
theorem claimC7_shuffle (a : List α) (rand : Nat → Nat) :
    (shuffleArray a rand : Multiset α) = (a : Multiset α) ∧
    (shuffleArray a rand).length = a.length ∧
    (a.length ≤ 1 → shuffleArray a rand = a) := by
  refine ⟨Multiset.coe_eq_coe.mpr (shuffleArray_perm a rand),
          (shuffleArray_perm a rand).length_eq, ?_⟩
  intro h
  unfold shuffleArray
  rw [Nat.sub_eq_zero_of_le h]
  rfl

/-- Claim C7 (witness): multiset preservation on a three-element list and
identity on a singleton. -/
theorem claimC7_shuffle_witness :
    (shuffleArray [1, 2, 3] (fun _ => 0) : Multiset Nat) =
      ([1, 2, 3] : Multiset Nat) ∧
    shuffleArray [9] (fun _ => 0) = [9] :=
  ⟨(claimC7_shuffle [1, 2, 3] (fun _ => 0)).1,
   (claimC7_shuffle [9] (fun _ => 0)).2.2 (by decide)⟩

/-- Claim C8: every question produced by a successful fetch has exactly one
answer whose correctness flag is true, for every possible shuffle outcome:
the answer list is built from one correct answer marked true plus the
incorrect answers marked false, and shuffling permutes it. -/
theorem claimC8_one_correct (resp : ApiResponse) (rands : Nat → Nat → Nat)
    (qs : List Question) (h : fetchQuestionsCore resp rands = Except.ok qs) :
    ∀ q ∈ qs, q.answers.countP (fun a => a.correct) = 1 := by
  intro q hq
  unfold fetchQuestionsCore at h
  split at h
  · exact absurd h (by simp)
  · split at h
    · exact absurd h (by simp)
    · split at h
      · exact absurd h (by simp)
      · replace h := Except.ok.inj h
        subst h
        rw [List.mem_map] at hq
        obtain ⟨p, hp, rfl⟩ := hq
        show (shuffleArray (mkAnswers p.2)
          (rands p.1)).countP (fun a => a.correct) = 1
        rw [(shuffleArray_perm (mkAnswers p.2) (rands p.1)).countP_eq]
        exact mkAnswers_countP p.2

/-- Claim C8 (witness): the single question fetched from `respOk` has
exactly one correct answer. -/
theorem claimC8_one_correct_witness :
    (mkQuestion (rands0 0) rawDemo).answers.countP (fun a => a.correct) = 1 :=
  claimC8_one_correct respOk rands0 [mkQuestion (rands0 0) rawDemo] rfl
    (mkQuestion (rands0 0) rawDemo) (by decide)

theorem decodeCharsFuel_entityFree (fuel : Nat) (l : List Char)
    (h : entityFree l = true) : decodeCharsFuel fuel l = l := by
  induction fuel generalizing l with
  | zero => cases l <;> rfl
  | succ fuel ih =>
    cases l with
    | nil => rfl
    | cons c rest =>
      have h1 : startsWithEntity (c :: rest) = false ∧ entityFree rest = true := by
        simpa [entityFree, Bool.and_eq_true, Bool.not_eq_true'] using h
      by_cases hc : c = '&'
      · subst hc
        cases hfE : findEntity rest with
        | some v =>
          exfalso
          have h2 := h1.1
          rw [startsWithEntity, hfE] at h2
          simp at h2
        | none =>
          simp [decodeCharsFuel, hfE, ih rest h1.2]
      · simp only [decodeCharsFuel, if_neg hc]
        rw [ih rest h1.2]

theorem decodeChars_entityFree (l : List Char) (h : entityFree l = true) :
    decodeChars l = l :=
  decodeCharsFuel_entityFree l.length l h

/-- Claim C9: `decodeHTML` converts named and numeric HTML character
references to their literal characters — on the spec's samples and on
decimal and hexadecimal numeric forms of the same characters — and returns
every plain-text string containing no entities (`entityFree`, which admits
literal ampersands that begin no reference) unchanged, so it is idempotent
on already-decoded text. -/
theorem claimC9_decode :
    decodeHTML "&lt;script&gt;" = "<script>" ∧
    decodeHTML "&quot;Hi&quot;" = "\"Hi\"" ∧
    decodeHTML "&amp;" = "&" ∧
    decodeHTML "&#60;script&#62;" = "<script>" ∧
    decodeHTML "&#x3C;" = "<" ∧
    decodeHTML "&#34;Hi&#34;" = "\"Hi\"" ∧
    decodeHTML "&#38;" = "&" ∧
    decodeHTML "&#039;" = String.mk [Char.ofNat 39] ∧
    ∀ s : String, entityFree s.data = true → decodeHTML s = s := by
  refine ⟨by decide, by decide, by decide, by decide, by decide, by decide,
          by decide, by decide, ?_⟩
  intro s h
  unfold decodeHTML
  rw [decodeChars_entityFree s.data h]

/-- Claim C9 (witness): entity-free plain text decodes to itself, including
the decoded form of an entity and a literal ampersand that begins no
reference. -/
theorem claimC9_decode_witness :
    decodeHTML "&" = "&" ∧
    decodeHTML "AT&T" = "AT&T" ∧
    decodeHTML "Hello there" = "Hello there" :=
  ⟨claimC9_decode.2.2.2.2.2.2.2.2 "&" (by decide),
   claimC9_decode.2.2.2.2.2.2.2.2 "AT&T" (by decide),
   claimC9_decode.2.2.2.2.2.2.2.2 "Hello there" (by decide)⟩

/-- Claim C10: the next-button handler never modifies the score or the
questions sequence; across all transitions, only `selectAnswer` (with a
correct answer) increases the score and only the fetch/restart path resets
it to 0, while `selectAnswer` leaves the questions and the index alone. -/
theorem claimC10_advance_frame :
    (∀ s s' : QuizState, handleNextButton s = some s' →
      s'.score = s.score ∧ s'.questions = s.questions) ∧
    (∀ (a : Answer) (s : QuizState),
      (selectAnswer a s).score = s.score + (if a.correct then 1 else 0) ∧
      (selectAnswer a s).questions = s.questions ∧
      (selectAnswer a s).currentQuestionIndex = s.currentQuestionIndex) ∧
    (∀ (s : QuizState) (resp : ApiResponse) (rands : Nat → Nat → Nat),
      (fetchQuestions s resp rands).score = s.score ∨
      (fetchQuestions s resp rands).score = 0) := by
  refine ⟨?_, ?_, ?_⟩
  · intro s s' h
    rcases handleNextButton_some h with ⟨_, rfl⟩ | ⟨_, rfl⟩ <;> exact ⟨rfl, rfl⟩
  · intro a s
    simp only [selectAnswer]
    split <;> simp_all
  · intro s resp rands
    rcases fetchQuestions_cases s resp rands with heq | ⟨qs, heq⟩
    · exact Or.inl (by rw [heq])
    · exact Or.inr (by rw [heq])

/-- Claim C10 (witness): the frame of the next-button handler evaluated on
the answered one-question session, whose advance lands on the score
screen. -/
theorem claimC10_advance_frame_witness :
    (QuizState.mk [demoQuestion] 1 1 true).score =
      (selectAnswer demoAnswer demoStart).score ∧
    (QuizState.mk [demoQuestion] 1 1 true).questions =
      (selectAnswer demoAnswer demoStart).questions :=
  claimC10_advance_frame.1 (selectAnswer demoAnswer demoStart)
    (QuizState.mk [demoQuestion] 1 1 true) (by decide)
